import Mathlib

/-!
Verification of the karmaMotor module (src/karmaMotor/main.cpp) against its
natural-language specification.  The definitions below are shallow embeddings
of the corresponding C++ fragments: pure numeric logic is modelled over ℚ where
the source only branches and does arithmetic, and over ℝ where the source uses
transcendental functions (cos, sin, atan2, sqrt).  Stateful call sequences are
modelled as explicit logs.
-/

/-- The two arms; in the source these are the pointers iCartCtrlL / iCartCtrlR. -/
inductive Arm
| left
| right
deriving DecidableEq

/-- The two candidate approach frames of KarmaMotor::push: H1 (z-axis pointing
inward, xd1/od1) and H2 (z-axis pointing outward, xd2/od2). -/
inductive Candidate
| c1
| c2
deriving DecidableEq

/-- Candidate selection block of KarmaMotor::push (main.cpp lines 591-629).
Inputs: the normalized angle in degrees (the variable theta computed by
atan2), the ask-pose residuals d1 = dist(H1-Hhat1), d2 = dist(H2-Hhat2),
and the selected arm.  Mirrors the if/else chain of the source exactly. -/
def chooseCandidate (theta d1 d2 : ℚ) (arm : Arm) : Candidate :=
  if |theta - 90| < 45 then
    (if arm = Arm.right then Candidate.c1 else Candidate.c2)
  else if |theta + 90| < 45 then
    (if arm = Arm.right then Candidate.c2 else Candidate.c1)
  else if d1 < d2 then Candidate.c1
  else Candidate.c2

/-- Arm selection of KarmaMotor::push (main.cpp lines 542-553): with
armType "selectable" the choice is by the sign of xd1[1] (the y world
coordinate of the first candidate); otherwise the explicit hint decides
("left" gives the left arm, anything else the right arm). -/
def selectArm (armType : String) (y : ℚ) : Arm :=
  if armType = "selectable" then
    (if 0 ≤ y then Arm.right else Arm.left)
  else if armType = "left" then Arm.left
  else Arm.right

/-- The C atan2, via the complex argument: atan2(y,x) = arg(x + y i),
with values in (-pi, pi]. -/
noncomputable def atan2 (y x : ℝ) : ℝ :=
  Complex.arg (Complex.ofReal x + Complex.ofReal y * Complex.I)

/-- Angle normalization of KarmaMotor::push (main.cpp lines 492-495):
theta (degrees) is converted to radians (CTRL_DEG2RAD = pi/180), and
atan2(sin, cos) maps it back to degrees in (-180, 180]
(CTRL_RAD2DEG = 180/pi). -/
noncomputable def normalizeTheta (theta : ℝ) : ℝ :=
  (180 / Real.pi) *
    atan2 (Real.sin (Real.pi / 180 * theta)) (Real.cos (Real.pi / 180 * theta))

/-- Trajectory-time bound pair of KarmaMotor::push (main.cpp lines 669-686):
the pair (tmin, tmax) is (0.40, 0.60) when |theta| < 10 or |theta - 180| < 10
and (0.50, 0.80) otherwise; both are scaled by 1.3 when armType is not
"selectable" (i.e. when a tool is attached). -/
def trajBounds (theta : ℚ) (armType : String) : ℚ × ℚ :=
  let tb : ℚ × ℚ :=
    if |theta| < 10 ∨ |theta - 180| < 10 then (40/100, 60/100) else (50/100, 80/100)
  if armType ≠ "selectable" then (tb.1 * (13/10), tb.2 * (13/10)) else tb

/-- Contact-segment trajectory duration of KarmaMotor::push (main.cpp lines
688-689): linear interpolation of (tmin, tmax) over radius in [0.04, 0.18],
then clamped as std::max(std::min(tmax, t), tmin). -/
def trajTime (theta radius : ℚ) (armType : String) : ℚ :=
  let rmin : ℚ := 4/100
  let rmax : ℚ := 18/100
  let tmin := (trajBounds theta armType).1
  let tmax := (trajBounds theta armType).2
  max (min tmax (tmin + ((tmax - tmin) / (rmax - rmin)) * (radius - rmin))) tmin

/-- Final-orientation rule of KarmaMotor::draw (main.cpp lines 961-977):
the 3x3 matrix R applied as the rotation block of both waypoints H1 and H2.
The source branches on the arm pointer (iCartCtrl == iCartCtrlR), but both
branches set exactly the same entries R(0,0) = R(2,1) = R(1,2) = -1. -/
def drawFinalAxes (arm : Arm) : Matrix (Fin 3) (Fin 3) ℚ :=
  match arm with
  | Arm.right => !![-1, 0, 0; 0, 0, -1; 0, -1, 0]
  | Arm.left => !![-1, 0, 0; 0, 0, -1; 0, -1, 0]

/-- Euclidean norm of an n-vector, as yarp::math::norm (sqrt of the sum of
squares). -/
noncomputable def vnorm {n : ℕ} (v : Fin n → ℝ) : ℝ :=
  Real.sqrt (∑ i, v i ^ 2)

open Classical in
/-- Quality score of the simulated draw, KarmaMotor::draw (main.cpp lines
1068-1092): res = e_x1 + e_o1 + e_x2 + e_o2 + nearness_penalty, where the
penalty is 10.0 when norm(xdhat1) < 0.15 or norm(xdhat2) < 0.15 and 0.0
otherwise.  Positions are 3-vectors, orientations axis-angle 4-vectors. -/
noncomputable def vdrawScore (xd1 xdhat1 : Fin 3 → ℝ) (od1 odhat1 : Fin 4 → ℝ)
    (xd2 xdhat2 : Fin 3 → ℝ) (od2 odhat2 : Fin 4 → ℝ) : ℝ :=
  let e_x1 := vnorm (xd1 - xdhat1)
  let e_o1 := vnorm (od1 - odhat1)
  let e_x2 := vnorm (xd2 - xdhat2)
  let e_o2 := vnorm (od2 - odhat2)
  let nearness_penalty : ℝ :=
    if vnorm xdhat1 < 0.15 ∨ vnorm xdhat2 < 0.15 then 10.0 else 0.0
  e_x1 + e_o1 + e_x2 + e_o2 + nearness_penalty

open Classical in
/-- Quality score of the simulated draw2, KarmaMotor::draw2 (main.cpp lines
1294-1316): identical to vdrawScore except that the nearness penalty tests
only norm(xdhat2) < 0.15. -/
noncomputable def vdraw2Score (xd1 xdhat1 : Fin 3 → ℝ) (od1 odhat1 : Fin 4 → ℝ)
    (xd2 xdhat2 : Fin 3 → ℝ) (od2 odhat2 : Fin 4 → ℝ) : ℝ :=
  let e_x1 := vnorm (xd1 - xdhat1)
  let e_o1 := vnorm (od1 - odhat1)
  let e_x2 := vnorm (xd2 - xdhat2)
  let e_o2 := vnorm (od2 - odhat2)
  let nearness_penalty : ℝ := if vnorm xdhat2 < 0.15 then 10.0 else 0.0
  e_x1 + e_o1 + e_x2 + e_o2 + nearness_penalty

/-- Replies produced by KarmaMotor::respond: an untouched (empty) reply
bottle, a plain [ack], an [ack] followed by the quality value, or a [nack]. -/
inductive Reply
| emptyReply
| ackReply
| ackValReply
| nackReply
deriving DecidableEq

/-- Incoming rpc commands relevant to the dispatch logic of
KarmaMotor::respond: push, draw, vdraw (payloads of doubles) and find
(payload of strings). -/
inductive Cmd
| pushCmd (payload : List ℚ)
| drawCmd (payload : List ℚ)
| vdraCmd (payload : List ℚ)
| findCmd (args : List String)

/-- Outcome of one respond dispatch: the reply content and whether any
motion command was issued to a cartesian controller. -/
structure RespondResult where
  reply : Reply
  motionIssued : Bool
deriving DecidableEq

/-- Dispatch logic of KarmaMotor::respond (main.cpp lines 213-296): push
requires at least 5 payload entries, draw/vdraw at least 6, find at least 2;
an undersized payload falls through leaving the reply empty and calling
nothing.  No payload value (in particular the radius) is ever validated.
vdraw runs draw in simulation, issuing no motion.  find replies [nack]
exactly when findToolTip rejects the arm name (neither "left" nor "right",
main.cpp lines 1491-1498). -/
def respondAction : Cmd → RespondResult
  | Cmd.pushCmd payload =>
      if 5 ≤ payload.length then ⟨Reply.ackReply, true⟩
      else ⟨Reply.emptyReply, false⟩
  | Cmd.drawCmd payload =>
      if 6 ≤ payload.length then ⟨Reply.ackReply, true⟩
      else ⟨Reply.emptyReply, false⟩
  | Cmd.vdraCmd payload =>
      if 6 ≤ payload.length then ⟨Reply.ackValReply, false⟩
      else ⟨Reply.emptyReply, false⟩
  | Cmd.findCmd args =>
      if 2 ≤ args.length then
        (if args.headI = "left" ∨ args.headI = "right" then ⟨Reply.ackReply, true⟩
         else ⟨Reply.nackReply, false⟩)
      else ⟨Reply.emptyReply, false⟩

/-- Log of the execution phase of KarmaMotor::push: which motion segments
issued a goToPoseSync call, and how many restoreContext / deleteContext
calls ran. -/
structure ExecLog where
  motions : List ℕ
  restores : ℕ
  deletes : ℕ
deriving DecidableEq

/-- Execution phase of KarmaMotor::push (main.cpp lines 651-712): four
motion segments, each guarded by its own read of the interrupting flag
(flag i is the value read just before segment i), followed by one
unconditional restoreContext and one unconditional deleteContext. -/
def executePushLog (flag : ℕ → Bool) : ExecLog :=
  { motions :=
      (if flag 1 then [] else [1]) ++ (if flag 2 then [] else [2]) ++
      (if flag 3 then [] else [3]) ++ (if flag 4 then [] else [4])
    restores := 1
    deletes := 1 }

/-- Pixel adjustment of KarmaMotor::moveTool (main.cpp lines 1429-1432):
the raw vision sample has 50.0 added to its vertical coordinate before it
is sent to iGaze->lookAtMonoPixel and before it is accumulated. -/
def gazePixel (raw : ℚ × ℚ) : ℚ × ℚ :=
  (raw.1, raw.2 + 50)

/-- Accumulator of the convergence loop of KarmaMotor::moveTool: the
cumulative adjusted pixel pxCum and the sample count cnt. -/
structure WindowState where
  pxCum : ℚ × ℚ
  cnt : ℕ
deriving DecidableEq

/-- One sample step of the convergence loop (main.cpp lines 1425-1437):
the adjusted pixel is added to pxCum and cnt is incremented. -/
def stepSample (s : WindowState) (raw : ℚ × ℚ) : WindowState :=
  { pxCum := ((s.pxCum).1 + (gazePixel raw).1, (s.pxCum).2 + (gazePixel raw).2)
    cnt := s.cnt + 1 }

/-- The accumulator after a 3-second window that received the given raw
samples, starting from pxCum = 0, cnt = 0 (main.cpp lines 1419-1420 and
the reset at lines 1444-1445). -/
def runWindow (raws : List (ℚ × ℚ)) : WindowState :=
  raws.foldl stepSample ⟨(0, 0), 0⟩

/-- Window convergence test of KarmaMotor::moveTool (main.cpp lines
1439-1443): done is set only when cnt > 20 and |pxCum[1]/cnt - 120| < 30. -/
def windowDone (s : WindowState) : Bool :=
  if 20 < s.cnt then decide (|(s.pxCum).2 / (s.cnt : ℚ) - 120| < 30) else false

/-- Process-wide tool state of KarmaMotor: the arm name pushHand and the
4x4 tool frame (main.cpp lines 176-177). -/
structure ToolState where
  pushHand : String
  toolFrame : Matrix (Fin 4) (Fin 4) ℝ

/-- yarp::math::axis2dcm: the 4x4 homogeneous rotation (Rodrigues formula)
for the axis-angle 4-vector v = (x, y, z, angle). -/
noncomputable def axis2dcm (v : Fin 4 → ℝ) : Matrix (Fin 4) (Fin 4) ℝ :=
  let c := Real.cos (v 3)
  let s := Real.sin (v 3)
  let Co := 1 - c
  !![v 0 * (v 0 * Co) + c, v 0 * (v 1 * Co) - v 2 * s, v 2 * (v 0 * Co) + v 1 * s, 0;
     v 0 * (v 1 * Co) + v 2 * s, v 1 * (v 1 * Co) + c, v 1 * (v 2 * Co) - v 0 * s, 0;
     v 2 * (v 0 * Co) - v 1 * s, v 1 * (v 2 * Co) + v 0 * s, v 2 * (v 2 * Co) + c, 0;
     0, 0, 0, 1]

/-- Matrix::setCol(3, p): replace column 3 of a 4x4 matrix by p. -/
def setCol3 (M : Matrix (Fin 4) (Fin 4) ℝ) (p : Fin 4 → ℝ) :
    Matrix (Fin 4) (Fin 4) ℝ :=
  Matrix.of fun i j => if j = 3 then p i else M i j

/-- Tool attach, [tool] [attach] arm x y z (main.cpp lines 303-323):
pushHand becomes the given arm; toolFrame becomes axis2dcm of the axis
(0,0,-1) with angle atan2(-y, x), with its column 3 then overwritten by
(x, y, z, 1). -/
noncomputable def toolAttach (arm : String) (x y z : ℝ) : ToolState :=
  { pushHand := arm
    toolFrame := setCol3 (axis2dcm ![0, 0, -1, atan2 (-y) x]) ![x, y, z, 1] }

/-- Tool attach, [toop] [attach] arm x y z (main.cpp lines 409-426):
pushHand becomes the given arm; toolFrame becomes the identity with its
column 3 overwritten by (x, y, z, 1). -/
noncomputable def toopAttach (arm : String) (x y z : ℝ) : ToolState :=
  { pushHand := arm
    toolFrame := setCol3 (1 : Matrix (Fin 4) (Fin 4) ℝ) ![x, y, z, 1] }

/-- Tool get, [tool] [get] (main.cpp lines 325-332): replies with pushHand
and toolFrame(0,3), toolFrame(1,3), toolFrame(2,3). -/
noncomputable def toolGet (s : ToolState) : String × ℝ × ℝ × ℝ :=
  (s.pushHand, s.toolFrame 0 3, s.toolFrame 1 3, s.toolFrame 2 3)

/-- Tool remove, [tool] [remove] (main.cpp lines 333-339): pushHand is
reset to "selectable" and toolFrame to the identity eye(4,4). -/
def toolRemove : ToolState :=
  { pushHand := "selectable", toolFrame := 1 }

/-! Helper lemmas. -/

theorem vnorm_sub_self {n : ℕ} (v : Fin n → ℝ) : vnorm (v - v) = 0 := by
  simp [vnorm]

theorem vnorm_axis (a : ℝ) : vnorm ![a, 0, 0] = |a| := by
  simp [vnorm, Fin.sum_univ_three, Real.sqrt_sq_eq_abs]

theorem trajBounds_le (theta : ℚ) (armType : String) :
    (trajBounds theta armType).1 ≤ (trajBounds theta armType).2 := by
  simp only [trajBounds]
  split_ifs <;> norm_num

theorem runWindow_invariant (raws : List (ℚ × ℚ)) :
    ∀ s : WindowState,
      (raws.foldl stepSample s).cnt = s.cnt + raws.length ∧
      ((raws.foldl stepSample s).pxCum).2 =
        (s.pxCum).2 + ((raws.map Prod.snd).sum + 50 * (raws.length : ℚ)) := by
  induction raws with
  | nil => intro s; simp
  | cons hd tl ih =>
      intro s
      simp only [List.foldl_cons, List.map_cons, List.sum_cons, List.length_cons]
      obtain ⟨h1, h2⟩ := ih (stepSample s hd)
      constructor
      · rw [h1]; simp [stepSample]; omega
      · rw [h2]; simp only [stepSample, gazePixel]
        push_cast
        ring

/-! Claim theorems. -/

/-- C1: in KarmaMotor::push, when the normalized theta satisfies
|theta - 90| < 45 or |theta + 90| < 45 the chosen candidate does not depend
on the ask-pose residuals d1, d2, and the right and left arm are assigned
opposite candidates. -/
theorem chooseCandidate_singularity_forced (theta d1 d2 d1' d2' : ℚ) (arm : Arm)
    (h : |theta - 90| < 45 ∨ |theta + 90| < 45) :
    chooseCandidate theta d1 d2 arm = chooseCandidate theta d1' d2' arm ∧
    chooseCandidate theta d1 d2 Arm.right ≠ chooseCandidate theta d1 d2 Arm.left := by
  rcases h with h | h
  · refine ⟨?_, ?_⟩
    · simp only [chooseCandidate, if_pos h]
    · simp [chooseCandidate, if_pos h]
  · have h2 : ¬ |theta - 90| < 45 := by
      rw [abs_lt] at h
      rw [not_lt, le_abs]
      right
      linarith
    refine ⟨?_, ?_⟩
    · simp only [chooseCandidate, if_neg h2, if_pos h]
    · simp [chooseCandidate, if_neg h2, if_pos h]

/-- Witness for C1 at theta = 90: the singularity condition holds, the
choice ignores the residuals, and the two arms get different candidates. -/
theorem chooseCandidate_singularity_forced_witness :
    (|(90 : ℚ) - 90| < 45 ∨ |(90 : ℚ) + 90| < 45) ∧
    chooseCandidate 90 1 2 Arm.right = chooseCandidate 90 5 0 Arm.right ∧
    chooseCandidate 90 1 2 Arm.right ≠ chooseCandidate 90 1 2 Arm.left :=
  ⟨Or.inl (by norm_num),
   (chooseCandidate_singularity_forced 90 1 2 5 0 Arm.right (Or.inl (by norm_num))).1,
   (chooseCandidate_singularity_forced 90 1 2 5 0 Arm.right (Or.inl (by norm_num))).2⟩

/-- C2 counterexample: in KarmaMotor::draw the final-orientation matrix is
the same for the right and the left arm — the reflection convention does
not differ between the arms, contradicting the claim. -/
theorem drawFinalAxes_counterexample :
    drawFinalAxes Arm.right = drawFinalAxes Arm.left := rfl

/-- C2 (amended): in KarmaMotor::draw the final orientation applied to both
waypoints is one fixed reflection matrix, identical for both arms: although
the source branches on the arm pointer, both branches assign exactly
R(0,0) = R(2,1) = R(1,2) = -1. -/
theorem drawFinalAxes_fixed (arm : Arm) :
    drawFinalAxes arm = !![-1, 0, 0; 0, 0, -1; 0, -1, 0] := by
  cases arm <;> rfl

/-- C3 counterexample: a simulated draw2 (vdrp) with zero residuals on both
waypoints, first achieved position of norm 0.1 < 0.15 and second achieved
position of norm 0.3 > 0.15 returns quality 0 — the claimed penalty of 10
for "either achieved position's norm below 0.15" is not added, since draw2
tests only the second waypoint. -/
theorem vdraw2Score_counterexample :
    vdraw2Score ![1/10, 0, 0] ![1/10, 0, 0] ![1, 0, 0, 0] ![1, 0, 0, 0]
        ![3/10, 0, 0] ![3/10, 0, 0] ![0, 1, 0, 0] ![0, 1, 0, 0] = 0 ∧
    vnorm ![(1 : ℝ)/10, 0, 0] < 0.15 := by
  constructor
  · simp only [vdraw2Score, vnorm_sub_self, vnorm_axis]
    rw [if_neg (by rw [abs_of_nonneg (by norm_num)]; norm_num)]
    norm_num
  · rw [vnorm_axis, abs_of_nonneg (by norm_num)]
    norm_num

/-- C3 (amended): with zero ask-pose residuals on both waypoints, the
simulated draw score is exactly the nearness penalty: 10 when either
achieved norm is below 0.15 and 0 otherwise for draw (vdra), while draw2
(vdrp) tests only the second achieved norm; in particular both scores are
exactly 0 when both achieved norms are not below 0.15. -/
theorem drawScores_zero_residual (xd1 xdhat1 : Fin 3 → ℝ) (od1 odhat1 : Fin 4 → ℝ)
    (xd2 xdhat2 : Fin 3 → ℝ) (od2 odhat2 : Fin 4 → ℝ)
    (h1 : xdhat1 = xd1) (h2 : odhat1 = od1) (h3 : xdhat2 = xd2) (h4 : odhat2 = od2) :
    (vnorm xdhat1 < 0.15 ∨ vnorm xdhat2 < 0.15 →
      vdrawScore xd1 xdhat1 od1 odhat1 xd2 xdhat2 od2 odhat2 = 10) ∧
    (¬ (vnorm xdhat1 < 0.15 ∨ vnorm xdhat2 < 0.15) →
      vdrawScore xd1 xdhat1 od1 odhat1 xd2 xdhat2 od2 odhat2 = 0) ∧
    (vnorm xdhat2 < 0.15 →
      vdraw2Score xd1 xdhat1 od1 odhat1 xd2 xdhat2 od2 odhat2 = 10) ∧
    (¬ vnorm xdhat2 < 0.15 →
      vdraw2Score xd1 xdhat1 od1 odhat1 xd2 xdhat2 od2 odhat2 = 0) := by
  subst h1 h2 h3 h4
  refine ⟨fun h => ?_, fun h => ?_, fun h => ?_, fun h => ?_⟩ <;>
    simp only [vdrawScore, vdraw2Score, vnorm_sub_self] <;>
    [rw [if_pos h]; rw [if_neg h]; rw [if_pos h]; rw [if_neg h]] <;>
    norm_num

/-- Witness for C3 (amended) at zero residuals with achieved norms 0.3 and
1.0, both above 0.15: both scores are exactly 0. -/
theorem drawScores_zero_residual_witness :
    vdrawScore ![3/10, 0, 0] ![3/10, 0, 0] ![1, 0, 0, 0] ![1, 0, 0, 0]
        ![1, 0, 0] ![1, 0, 0] ![0, 1, 0, 0] ![0, 1, 0, 0] = 0 ∧
    vdraw2Score ![3/10, 0, 0] ![3/10, 0, 0] ![1, 0, 0, 0] ![1, 0, 0, 0]
        ![1, 0, 0] ![1, 0, 0] ![0, 1, 0, 0] ![0, 1, 0, 0] = 0 := by
  have h := drawScores_zero_residual ![3/10, 0, 0] ![3/10, 0, 0] ![1, 0, 0, 0]
    ![1, 0, 0, 0] ![1, 0, 0] ![1, 0, 0] ![0, 1, 0, 0] ![0, 1, 0, 0] rfl rfl rfl rfl
  have hn1 : ¬ vnorm ![(3 : ℝ)/10, 0, 0] < 0.15 := by
    rw [vnorm_axis, abs_of_nonneg (by norm_num)]; norm_num
  have hn2 : ¬ vnorm ![(1 : ℝ), 0, 0] < 0.15 := by
    rw [vnorm_axis, abs_of_nonneg (by norm_num)]; norm_num
  exact ⟨h.2.1 (not_or.mpr ⟨hn1, hn2⟩), h.2.2.2 hn2⟩

/-- C4 counterexample: a push request with radius -1 (≤ 0) is not rejected:
respond invokes the push action (motion is issued) and replies with a plain
[ack], not with a negative acknowledgement. -/
theorem respondAction_counterexample :
    respondAction (Cmd.pushCmd [3/10, 1/10, 0, 0, -1]) =
      ⟨Reply.ackReply, true⟩ := rfl

/-- C4 (amended): a request with insufficient fields is dropped before any
planning with an untouched empty reply (neither ack nor nack); payload
values — in particular a radius ≤ 0 — are never validated, so any push
payload with at least 5 entries is planned, executed and acknowledged; the
only negative acknowledgement comes from a find request whose arm name is
neither "left" nor "right". -/
theorem respondAction_validation (p q d : List ℚ) (a : List String)
    (hp : p.length < 5) (hq : 5 ≤ q.length) (hd : d.length < 6)
    (ha : 2 ≤ a.length) (hl : a.headI ≠ "left") (hr : a.headI ≠ "right") :
    respondAction (Cmd.pushCmd p) = ⟨Reply.emptyReply, false⟩ ∧
    respondAction (Cmd.pushCmd q) = ⟨Reply.ackReply, true⟩ ∧
    respondAction (Cmd.drawCmd d) = ⟨Reply.emptyReply, false⟩ ∧
    respondAction (Cmd.findCmd a) = ⟨Reply.nackReply, false⟩ := by
  refine ⟨?_, ?_, ?_, ?_⟩
  · simp [respondAction, Nat.not_le.mpr hp]
  · simp [respondAction, hq]
  · simp [respondAction, Nat.not_le.mpr hd]
  · simp [respondAction, ha, hl, hr]

/-- Witness for C4 (amended): a 2-entry push payload is dropped with an
empty reply; a 5-entry push payload with radius -1 is acknowledged and
executed; a 1-entry draw payload is dropped; find with arm "arm" is
rejected with [nack]. -/
theorem respondAction_validation_witness :
    respondAction (Cmd.pushCmd [1, 2]) = ⟨Reply.emptyReply, false⟩ ∧
    respondAction (Cmd.pushCmd [3/10, 1/10, 0, 0, -1]) = ⟨Reply.ackReply, true⟩ ∧
    respondAction (Cmd.drawCmd [1]) = ⟨Reply.emptyReply, false⟩ ∧
    respondAction (Cmd.findCmd ["arm", "left"]) = ⟨Reply.nackReply, false⟩ :=
  respondAction_validation [1, 2] [3/10, 1/10, 0, 0, -1] [1] ["arm", "left"]
    (by decide) (by decide) (by decide) (by decide) (by decide) (by decide)

/-- C5: if the interrupting flag is monotone (once set it stays set) and is
already set at the read guarding segment 3 of the push execution, then no
motion call is issued for segments 3 and 4, while restoreContext and
deleteContext each still run exactly once. -/
theorem executePushLog_cancellation (flag : ℕ → Bool)
    (hmono : ∀ i j, i ≤ j → flag i = true → flag j = true)
    (h3 : flag 3 = true) :
    (∀ m ∈ (executePushLog flag).motions, m ≤ 2) ∧
    (executePushLog flag).restores = 1 ∧
    (executePushLog flag).deletes = 1 := by
  have h4 : flag 4 = true := hmono 3 4 (by norm_num) h3
  refine ⟨?_, rfl, rfl⟩
  intro m hm
  simp only [executePushLog, h3, h4, if_true, List.append_nil] at hm
  by_cases f1 : flag 1 <;> by_cases f2 : flag 2 <;>
    simp [f1, f2] at hm <;> omega

/-- Witness for C5 with the flag set from the read guarding segment 3
onward: only segments before 3 issue motion; one restore and one delete. -/
theorem executePushLog_cancellation_witness :
    (∀ m ∈ (executePushLog (fun i => decide (3 ≤ i))).motions, m ≤ 2) ∧
    (executePushLog (fun i => decide (3 ≤ i))).restores = 1 ∧
    (executePushLog (fun i => decide (3 ≤ i))).deletes = 1 :=
  executePushLog_cancellation (fun i => decide (3 ≤ i))
    (fun i j hij hi => by
      simp only [decide_eq_true_eq] at hi ⊢
      omega)
    (by decide)

/-- C6: the contact-segment duration is non-decreasing in the radius for a
fixed theta and arm/tool state, clamped to [tmin, tmax]; the bound pair is
(0.40, 0.60) when theta is within 10 degrees of 0 or 180 and (0.50, 0.80)
otherwise, and both bounds are scaled by 1.3 exactly when a tool is
attached (armType different from "selectable"). -/
theorem trajTime_radius_monotone (theta r1 r2 : ℚ) (armType : String)
    (hr : r1 ≤ r2) :
    trajTime theta r1 armType ≤ trajTime theta r2 armType ∧
    (trajBounds theta armType).1 ≤ trajTime theta r1 armType ∧
    trajTime theta r1 armType ≤ (trajBounds theta armType).2 ∧
    trajBounds theta "selectable" =
      (if |theta| < 10 ∨ |theta - 180| < 10 then (40/100, 60/100)
       else (50/100, 80/100)) ∧
    (armType ≠ "selectable" →
      trajBounds theta armType =
        ((trajBounds theta "selectable").1 * (13/10),
         (trajBounds theta "selectable").2 * (13/10))) := by
  have hb := trajBounds_le theta armType
  refine ⟨?_, ?_, ?_, ?_, ?_⟩
  · simp only [trajTime]
    refine max_le_max (min_le_min le_rfl ?_) le_rfl
    have hs : (0 : ℚ) ≤
        ((trajBounds theta armType).2 - (trajBounds theta armType).1) /
          (18/100 - 4/100) :=
      div_nonneg (by linarith) (by norm_num)
    have := mul_le_mul_of_nonneg_left (sub_le_sub_right hr ((4 : ℚ)/100)) hs
    linarith
  · simp only [trajTime]
    exact le_max_right _ _
  · simp only [trajTime]
    exact max_le (min_le_left _ _) hb
  · simp only [trajBounds]
    norm_num
  · intro hA
    simp only [trajBounds, if_pos hA]
    norm_num

/-- Witness for C6 at theta = 0, armType "left" (tool attached), radii 0.04
and 0.18. -/
theorem trajTime_radius_monotone_witness :
    ((4 : ℚ)/100 ≤ 18/100) ∧
    (trajTime 0 (4/100) "left" ≤ trajTime 0 (18/100) "left" ∧
     (trajBounds 0 "left").1 ≤ trajTime 0 (4/100) "left" ∧
     trajTime 0 (4/100) "left" ≤ (trajBounds 0 "left").2 ∧
     trajBounds 0 "selectable" =
       (if |(0 : ℚ)| < 10 ∨ |(0 : ℚ) - 180| < 10 then ((40 : ℚ)/100, (60 : ℚ)/100)
        else ((50 : ℚ)/100, (80 : ℚ)/100)) ∧
     ("left" ≠ "selectable" →
       trajBounds 0 "left" =
         ((trajBounds 0 "selectable").1 * (13/10),
          (trajBounds 0 "selectable").2 * (13/10)))) :=
  ⟨by norm_num, trajTime_radius_monotone 0 (4/100) (18/100) "left" (by norm_num)⟩

/-- C7: the angle normalization of KarmaMotor::push lands in (-180, 180]
degrees for every real theta, and is idempotent. -/
theorem normalizeTheta_range_idempotent (theta : ℝ) :
    normalizeTheta theta ∈ Set.Ioc (-180 : ℝ) 180 ∧
    normalizeTheta (normalizeTheta theta) = normalizeTheta theta := by
  have hpos : (0 : ℝ) < 180 / Real.pi := by positivity
  have hgen : ∀ t : ℝ, normalizeTheta t ∈ Set.Ioc (-180 : ℝ) 180 := by
    intro t
    unfold normalizeTheta atan2
    obtain ⟨ha1, ha2⟩ := Complex.arg_mem_Ioc
      (Complex.ofReal (Real.cos (Real.pi / 180 * t)) +
        Complex.ofReal (Real.sin (Real.pi / 180 * t)) * Complex.I)
    rw [Set.mem_Ioc]
    constructor
    · have h := mul_lt_mul_of_pos_left ha1 hpos
      rw [mul_neg, div_mul_cancel₀ _ Real.pi_ne_zero] at h
      exact h
    · have h := mul_le_mul_of_nonneg_left ha2 hpos.le
      rw [div_mul_cancel₀ _ Real.pi_ne_zero] at h
      exact h
  refine ⟨hgen theta, ?_⟩
  have key : ∀ b : ℝ, b ∈ Set.Ioc (-Real.pi) Real.pi →
      normalizeTheta (180 / Real.pi * b) = 180 / Real.pi * b := by
    intro b hb
    unfold normalizeTheta atan2
    have harg : Real.pi / 180 * (180 / Real.pi * b) = b := by
      field_simp
      ring
    rw [harg, Complex.ofReal_cos, Complex.ofReal_sin,
      Complex.arg_cos_add_sin_mul_I hb]
  exact key _ (Complex.arg_mem_Ioc _)

/-- C8: with armType "selectable" the right arm is selected exactly when
the first candidate's y coordinate is non-negative and the left arm exactly
when it is negative; the explicit hints "left" and "right" always select
that arm, regardless of the candidate geometry. -/
theorem selectArm_spec (y : ℚ) :
    (selectArm "selectable" y = Arm.right ↔ 0 ≤ y) ∧
    (selectArm "selectable" y = Arm.left ↔ y < 0) ∧
    selectArm "left" y = Arm.left ∧
    selectArm "right" y = Arm.right := by
  by_cases h : 0 ≤ y
  · refine ⟨?_, ?_, ?_, ?_⟩ <;> simp [selectArm, h, not_lt.mpr h]
  · refine ⟨?_, ?_, ?_, ?_⟩ <;> simp [selectArm, h, not_le.mp h]

/-- C9: attaching a tool (either attach variant) and immediately issuing a
tool-get returns exactly the attached arm name and (x, y, z) offset, and
tool-remove resets the tool frame to the identity and the arm name to the
"selectable" default. -/
theorem toolLifecycle_roundTrip (arm : String) (x y z : ℝ) :
    toolGet (toolAttach arm x y z) = (arm, x, y, z) ∧
    toolGet (toopAttach arm x y z) = (arm, x, y, z) ∧
    toolRemove.pushHand = "selectable" ∧
    toolRemove.toolFrame = 1 := by
  refine ⟨?_, ?_, rfl, rfl⟩ <;>
    simp [toolGet, toolAttach, toopAttach, setCol3]

/-- C10: every vision sample forwarded to the gaze controller has 50 added
to its vertical pixel coordinate, and the window convergence test (mean of
the accumulated vertical coordinates within 30 of 120, over more than 20
samples) succeeds exactly when the mean of the raw vertical coordinates is
within 30 of 70. -/
theorem moveToolWindow_spec (raws : List (ℚ × ℚ)) :
    (∀ raw : ℚ × ℚ, (gazePixel raw).2 = raw.2 + 50) ∧
    (windowDone (runWindow raws) = true ↔
      (20 < raws.length ∧
        |(raws.map Prod.snd).sum / (raws.length : ℚ) - 70| < 30)) := by
  refine ⟨fun raw => rfl, ?_⟩
  obtain ⟨hc, hp⟩ := runWindow_invariant raws ⟨(0, 0), 0⟩
  have hcnt : (runWindow raws).cnt = raws.length := by simpa [runWindow] using hc
  have hpx : ((runWindow raws).pxCum).2 =
      (raws.map Prod.snd).sum + 50 * (raws.length : ℚ) := by
    simpa [runWindow] using hp
  unfold windowDone
  rw [hcnt, hpx]
  by_cases hlen : 20 < raws.length
  · have hn : ((raws.length : ℚ)) ≠ 0 := by
      have : raws.length ≠ 0 := by omega
      exact_mod_cast this
    rw [if_pos hlen, decide_eq_true_eq]
    have heq : ((raws.map Prod.snd).sum + 50 * (raws.length : ℚ)) /
        (raws.length : ℚ) - 120 =
        (raws.map Prod.snd).sum / (raws.length : ℚ) - 70 := by
      field_simp
      ring
    rw [heq]
    simp [hlen]
  · rw [if_neg hlen]
    simp [hlen]
